import Mathlib

/-!
# Shallow embedding of TimesTable (src/src/app.rs)

The program is an egui application drawing a "times-table circle".  The
embedding below translates the arithmetic core of `src/src/app.rs`:

* `f32` values are modelled as exact rationals (`ℚ`); an `f32` literal is
  modelled by the rational its decimal text denotes, and the constants
  `std::f32::consts::PI` / `TAU` are modelled by the exact rational value of
  the corresponding `f32` bit pattern.
* `usize` is modelled as `ℕ`; the Rust cast `f32 as usize` saturates
  (negative values to `0`, values above `usize::MAX` to `usize::MAX`) and
  truncates toward zero, which `usizeOfF32` reproduces.
* `f32::cos` / `f32::sin` are modelled as abstract function parameters
  `(c s : ℚ → ℚ)`: no claim depends on the value of a trigonometric
  function, only on which angles they are applied to.
* Fallible operations of the drawing loop (`%` by zero panics in Rust,
  out-of-range `Vec` indexing panics) are modelled with `Option`-returning
  "checked" variants, `none` standing for the panic.
-/

/-- `usize::MAX` on the 64-bit targets the app is built for. -/
def USIZE_MAX : ℕ := 2 ^ 64 - 1

/-- Rust's saturating, truncating cast `f32 as usize` (app.rs:249), on the
rational model of `f32`: truncate toward zero, clamp below at `0` and above
at `usize::MAX`.  For `q < 0`, `⌊q⌋.toNat = 0`, matching the saturation. -/
def usizeOfF32 (q : ℚ) : ℕ := min (Int.toNat ⌊q⌋) USIZE_MAX

/-- The paired-index computation of the drawing loop (app.rs:249):
`let j = ((i as f32) * self.multiplier) as usize % self.num_points;`. -/
def pairedIndex (i : ℕ) (m : ℚ) (n : ℕ) : ℕ :=
  usizeOfF32 ((i : ℚ) * m) % n

/-- `std::f32::consts::PI` as an exact rational (bit pattern `0x40490FDB`). -/
def PI32 : ℚ := 13176795 / 4194304

/-- `std::f32::consts::TAU` as an exact rational (bit pattern `0x40C90FDB`). -/
def TAU32 : ℚ := 13176795 / 2097152

/-- Loop of `generate_points` (app.rs:348-355): starting from `angle`, emit
`count` points `(cos angle, sin angle)`, stepping `angle` by `stepA` after
each point. -/
def genPointsAux (c s : ℚ → ℚ) (stepA : ℚ) : ℕ → ℚ → List (ℚ × ℚ)
  | 0, _ => []
  | count + 1, angle =>
      (c angle, s angle) :: genPointsAux c s stepA count (angle + stepA)

/-- `generate_points(num_points, start_angle)` (app.rs:344-357): the angular
step is `TAU / (num_points as f32)`; the loop runs `num_points` times.  The
division is only consumed inside the loop body, so it is never used when
`num_points = 0`. -/
def generate_points (c s : ℚ → ℚ) (num_points : ℕ) (start_angle : ℚ) :
    List (ℚ × ℚ) :=
  genPointsAux c s (TAU32 / (num_points : ℚ)) num_points start_angle

theorem genPointsAux_length (c s : ℚ → ℚ) (stepA : ℚ) :
    ∀ (count : ℕ) (angle : ℚ), (genPointsAux c s stepA count angle).length = count := by
  intro count
  induction count with
  | zero => intro angle; rfl
  | succ k ih => intro angle; simp [genPointsAux, ih]

theorem genPointsAux_get? (c s : ℚ → ℚ) (stepA : ℚ) :
    ∀ (count k : ℕ) (angle : ℚ), k < count →
      (genPointsAux c s stepA count angle).get? k =
        some (c (angle + k * stepA), s (angle + k * stepA)) := by
  intro count
  induction count with
  | zero => intro k angle hk; exact absurd hk (Nat.not_lt_zero k)
  | succ cnt ih =>
      intro k angle hk
      cases k with
      | zero => simp [genPointsAux]
      | succ k =>
          have hk' : k < cnt := Nat.lt_of_succ_lt_succ hk
          have := ih k (angle + stepA) hk'
          simp only [genPointsAux, List.get?_cons_succ, this]
          have harith : angle + stepA + (k : ℚ) * stepA = angle + (k + 1 : ℕ) * stepA := by
            push_cast
            ring
          rw [harith]

/-- C1: for `n > 0` and a product below `usize::MAX + 1`, the paired index is
the product truncated toward zero (`⌊·⌋.toNat`, which is truncation toward
zero composed with the unsigned clamp at `0`) and then reduced mod `n`; in
particular `pairedIndex 3 2.5 10 = 7`, not `8`. -/
theorem pairedIndex_floor_mod :
    (∀ (i n : ℕ) (m : ℚ), 0 < n → (i : ℚ) * m < 2 ^ 64 →
      pairedIndex i m n = Int.toNat ⌊(i : ℚ) * m⌋ % n) ∧
    pairedIndex 3 (5 / 2) 10 = 7 ∧ pairedIndex 3 (5 / 2) 10 ≠ 8 := by
  refine ⟨?_, ?_, ?_⟩
  · intro i n m _hn hlt
    unfold pairedIndex usizeOfF32 USIZE_MAX
    congr 1
    have hfloor : ⌊(i : ℚ) * m⌋ < (2 ^ 64 : ℤ) := by
      apply Int.floor_lt.mpr
      push_cast
      exact hlt
    have htoNat : Int.toNat ⌊(i : ℚ) * m⌋ ≤ 2 ^ 64 - 1 := by
      omega
    exact Nat.min_eq_left htoNat
  · norm_num [pairedIndex, usizeOfF32, USIZE_MAX]
    all_goals decide
  · norm_num [pairedIndex, usizeOfF32, USIZE_MAX]
    all_goals decide

/-- C9: at multiplier `1.0` the pairing is the identity on `i < n` (for any
`n` representable in `usize`). -/
theorem pairedIndex_one_identity (i n : ℕ) (hin : i < n) (hn : n ≤ 2 ^ 64) :
    pairedIndex i 1 n = i := by
  unfold pairedIndex usizeOfF32 USIZE_MAX
  have h1 : ((i : ℚ) * 1) = (i : ℚ) := by ring
  rw [h1]
  have h2 : ⌊(i : ℚ)⌋ = (i : ℤ) := Int.floor_natCast i
  rw [h2]
  have h3 : Int.toNat (i : ℤ) = i := Int.toNat_natCast i
  rw [h3]
  have h4 : min i (2 ^ 64 - 1) = i := Nat.min_eq_left (by omega)
  rw [h4]
  exact Nat.mod_eq_of_lt hin

/-- Witness for `pairedIndex_one_identity`. -/
theorem pairedIndex_one_identity_witness : pairedIndex 5 1 10 = 5 :=
  pairedIndex_one_identity 5 10 (by decide) (by norm_num)

/-- Witness for `pairedIndex_floor_mod`. -/
theorem pairedIndex_floor_mod_witness :
    pairedIndex 3 (5 / 2) 10 = Int.toNat ⌊(3 : ℚ) * (5 / 2)⌋ % 10 :=
  pairedIndex_floor_mod.1 3 10 (5 / 2) (by norm_num) (by norm_num)

/-- C3: `generate_points` on `num_points = 0` returns the empty list, and on
`num_points = n > 0` it returns exactly `n` points, the `k`-th one being the
cosine/sine pair of `start_angle + k * (TAU / n)` (the angle accumulation of
the source loop is exact over `ℚ`). -/
theorem generate_points_spec (c s : ℚ → ℚ) (θ : ℚ) :
    generate_points c s 0 θ = [] ∧
    ∀ n : ℕ, 0 < n →
      (generate_points c s n θ).length = n ∧
      ∀ k : ℕ, k < n →
        (generate_points c s n θ).get? k =
          some (c (θ + k * (TAU32 / (n : ℚ))), s (θ + k * (TAU32 / (n : ℚ)))) := by
  refine ⟨rfl, ?_⟩
  intro n _hn
  exact ⟨genPointsAux_length c s _ n θ, fun k hk => genPointsAux_get? c s _ n k θ hk⟩

/-- Witness for `generate_points_spec`. -/
theorem generate_points_spec_witness :
    (generate_points (fun _ => 0) (fun _ => 0) 4 0).length = 4 :=
  ((generate_points_spec (fun _ => 0) (fun _ => 0) 0).2 4 (by decide)).1

/-- The `%` of the drawing loop (app.rs:249), with the Rust panic on a zero
modulus made explicit as `none`. -/
def pairedIndexChecked (i : ℕ) (m : ℚ) (n : ℕ) : Option ℕ :=
  if n = 0 then none else some (pairedIndex i m n)

/-- One iteration of the line-drawing loop body (app.rs:247-259): compute the
paired index `j` (panicking if `num_points = 0`), then read `points[i]` and
`points[j]` (panicking when out of bounds) and transform both endpoints to
world coordinates.  The color-mode match (app.rs:263-282) selects a stroke
color but emits the same segment in every branch; it is omitted here. -/
def drawLineAt (points : List (ℚ × ℚ)) (n : ℕ) (m : ℚ)
    (radius : ℚ) (center offset : ℚ × ℚ) (i : ℕ) :
    Option ((ℚ × ℚ) × (ℚ × ℚ)) := do
  let j ← pairedIndexChecked i m n
  let pi_ ← points.get? i
  let pj ← points.get? j
  some ((pi_.1 * radius + center.1 + offset.1, pi_.2 * radius + center.2 + offset.2),
        (pj.1 * radius + center.1 + offset.1, pj.2 * radius + center.2 + offset.2))

/-- The full line-drawing loop `for i in 0..num_points` (app.rs:247-283),
collecting the drawn segments; `none` models a panic in some iteration. -/
def drawLines (points : List (ℚ × ℚ)) (n : ℕ) (m : ℚ)
    (radius : ℚ) (center offset : ℚ × ℚ) :
    Option (List ((ℚ × ℚ) × (ℚ × ℚ))) :=
  (List.range n).mapM (drawLineAt points n m radius center offset)

/-- C8: with `num_points = 0` the point generator runs zero iterations (so
the division `TAU / n` guarded by the loop bound is never consumed) and the
drawing loop runs zero iterations (so the modulo by zero and the indexing
are never executed): the result is an empty point set and zero drawn lines,
with no panic (`some []`, never `none`). -/
theorem num_points_zero_safe (c s : ℚ → ℚ) (θ m radius : ℚ)
    (center offset : ℚ × ℚ) :
    generate_points c s 0 θ = [] ∧
    drawLines (generate_points c s 0 θ) 0 m radius center offset = some [] := by
  exact ⟨rfl, rfl⟩

/-- C10: for `n > 0`, any `i < n` and any non-negative multiplier (fractional
or exceeding `n`), the paired index is below the length of the generated
point list, and every iteration of the drawing loop succeeds (no
out-of-bounds access). -/
theorem pairedIndex_in_bounds (c s : ℚ → ℚ) (θ m radius : ℚ)
    (center offset : ℚ × ℚ) (n i : ℕ) (hn : 0 < n) (hi : i < n) (_hm : 0 ≤ m) :
    pairedIndex i m n < (generate_points c s n θ).length ∧
    (drawLineAt (generate_points c s n θ) n m radius center offset i).isSome := by
  have hlen : (generate_points c s n θ).length = n :=
    genPointsAux_length c s _ n θ
  have hj : pairedIndex i m n < n := Nat.mod_lt _ hn
  constructor
  · rw [hlen]
    exact hj
  · unfold drawLineAt pairedIndexChecked
    rw [if_neg (Nat.pos_iff_ne_zero.mp hn)]
    have hgi : (generate_points c s n θ).get? i =
        some (c (θ + i * (TAU32 / (n : ℚ))), s (θ + i * (TAU32 / (n : ℚ)))) :=
      genPointsAux_get? c s _ n i θ hi
    have hgj : (generate_points c s n θ).get? (pairedIndex i m n) =
        some (c (θ + (pairedIndex i m n) * (TAU32 / (n : ℚ))),
              s (θ + (pairedIndex i m n) * (TAU32 / (n : ℚ)))) :=
      genPointsAux_get? c s _ n (pairedIndex i m n) θ hj
    rw [List.get?_eq_getElem?] at hgi hgj
    simp [Option.bind, hgi, hgj]

/-- Witness for `pairedIndex_in_bounds`. -/
theorem pairedIndex_in_bounds_witness :
    pairedIndex 3 (5 / 2) 10 <
      (generate_points (fun _ => 0) (fun _ => 1) 10 0).length :=
  (pairedIndex_in_bounds (fun _ => 0) (fun _ => 1) 0 (5 / 2) 1 (0, 0) (0, 0)
    10 3 (by decide) (by decide) (by norm_num)).1

/-- `ColorMode` (app.rs:16-20): each variant carries its display label. -/
inductive ColorMode where
  | Monochrome (label : String)
  | Length (label : String)
  | Radial (label : String)
deriving DecidableEq

/-- An sRGBA color, modelling `egui::Color32`. -/
def Rgba := ℕ × ℕ × ℕ × ℕ

/-- `Color32::BLACK`. -/
def BLACK : Rgba := (0, 0, 0, 255)

/-- `Color32::WHITE`. -/
def WHITE : Rgba := (255, 255, 255, 255)

/-- The application state `TimesCircleApp` (app.rs:22-39). -/
structure TimesCircleApp where
  first_frame : Bool
  center : ℚ × ℚ
  offset : ℚ × ℚ
  zoom : ℚ
  rotation : ℚ
  paused : Bool
  num_points : ℕ
  multiplier : ℚ
  step_size : ℚ
  stroke : ℚ
  color : Rgba
  background_color : Rgba
  color_mode : ColorMode
  show_style_options : Bool
  perimeter_points_radius : ℚ
  perimeter_point_color : Rgba

/-- `TimesCircleApp::new` (app.rs:64-83): the state created once at program
start. -/
def TimesCircleApp.new : TimesCircleApp where
  first_frame := true
  center := (0, 0)
  offset := (0, 0)
  zoom := 85 / 100
  rotation := PI32
  paused := true
  num_points := 10
  multiplier := 2
  step_size := 1 / 10
  stroke := 1
  color := BLACK
  background_color := WHITE
  color_mode := ColorMode.Monochrome "Monochrome"
  show_style_options := false
  perimeter_points_radius := 2
  perimeter_point_color := BLACK

/-- The animation part of `update` (app.rs:55-58): when not paused and
`multiplier` is strictly between `0` and `num_points`, add `step_size` to
`multiplier` and request a repaint (`true`); otherwise leave the state
unchanged and request nothing (`false`). -/
def TimesCircleApp.step (s : TimesCircleApp) : TimesCircleApp × Bool :=
  if s.paused = false ∧ s.multiplier < (s.num_points : ℚ) ∧ 0 < s.multiplier then
    ({ s with multiplier := s.multiplier + s.step_size }, true)
  else
    (s, false)

/-- Clamp `x` into `[lo, hi]`, as an egui slider does to its value. -/
def clampQ (lo hi x : ℚ) : ℚ := max lo (min hi x)

/-- Points slider (app.rs:134), range `0..=10000`. -/
def TimesCircleApp.setNumPoints (s : TimesCircleApp) (v : ℕ) : TimesCircleApp :=
  { s with num_points := min v 10000 }

/-- Multiplier slider (app.rs:137-142), range `0.0..=num_points as f32`. -/
def TimesCircleApp.setMultiplier (s : TimesCircleApp) (v : ℚ) : TimesCircleApp :=
  { s with multiplier := clampQ 0 (s.num_points : ℚ) v }

/-- Step-size slider (app.rs:145-150), range `0.0..=1.0`. -/
def TimesCircleApp.setStepSize (s : TimesCircleApp) (v : ℚ) : TimesCircleApp :=
  { s with step_size := clampQ 0 1 v }

/-- Line-width slider (app.rs:208-212), range `0.0..=1.0`. -/
def TimesCircleApp.setStroke (s : TimesCircleApp) (v : ℚ) : TimesCircleApp :=
  { s with stroke := clampQ 0 1 v }

/-- Point-size slider (app.rs:215-220), range `0.0..=10.0`. -/
def TimesCircleApp.setPerimeterPointsRadius (s : TimesCircleApp) (v : ℚ) :
    TimesCircleApp :=
  { s with perimeter_points_radius := clampQ 0 10 v }

/-- The play button (app.rs:154-156). -/
def TimesCircleApp.play (s : TimesCircleApp) : TimesCircleApp :=
  { s with paused := false }

/-- The stop button (app.rs:157-159). -/
def TimesCircleApp.pause (s : TimesCircleApp) : TimesCircleApp :=
  { s with paused := true }

/-- The state after one frame's animation update (app.rs:55-58). -/
def TimesCircleApp.frame (s : TimesCircleApp) : TimesCircleApp :=
  (TimesCircleApp.step s).1

/-- Recomputation of `center` from the window rectangle (app.rs:45-48). -/
def TimesCircleApp.setCenter (s : TimesCircleApp) (c : ℚ × ℚ) : TimesCircleApp :=
  { s with center := c }

/-- Primary-button drag (app.rs:319-323): the pointer delta accumulates into
`offset`, unclamped. -/
def TimesCircleApp.mouseDrag (s : TimesCircleApp) (d : ℚ × ℚ) : TimesCircleApp :=
  { s with offset := (s.offset.1 + d.1, s.offset.2 + d.2) }

/-- The zoom part of `handle_mouse_inputs` (app.rs:326-333): `zoom` is
multiplied by the gesture factor, with no clamp, and `offset` is corrected
so the focal point stays under the pointer. -/
def TimesCircleApp.mouseZoom (s : TimesCircleApp) (factor : ℚ) (pos : ℚ × ℚ) :
    TimesCircleApp :=
  { s with
    zoom := s.zoom * factor
    offset := (s.offset.1 + (s.center.1 + s.offset.1 - pos.1) * (factor - 1),
               s.offset.2 + (s.center.2 + s.offset.2 - pos.2) * (factor - 1)) }

/-- `handle_multitouch_inputs` (app.rs:336-341): `zoom` is multiplied by the
pinch factor (no clamp), rotation and translation deltas accumulate. -/
def TimesCircleApp.multitouch (s : TimesCircleApp) (zd rd : ℚ) (td : ℚ × ℚ) :
    TimesCircleApp :=
  { s with
    zoom := s.zoom * zd
    rotation := s.rotation + rd
    offset := (s.offset.1 + td.1, s.offset.2 + td.2) }

/-- Color-mode cycle button (app.rs:182-194). -/
def TimesCircleApp.cycleColorMode (s : TimesCircleApp) : TimesCircleApp :=
  { s with
    color_mode :=
      match s.color_mode with
      | ColorMode.Monochrome _ => ColorMode.Length "Length"
      | ColorMode.Length _ => ColorMode.Radial "Radial"
      | ColorMode.Radial _ => ColorMode.Monochrome "Monochrome" }

/-- Style-options toggle button (app.rs:164-166). -/
def TimesCircleApp.toggleStyleOptions (s : TimesCircleApp) : TimesCircleApp :=
  { s with show_style_options := ¬s.show_style_options }

/-- Color pickers (app.rs:178, 204, 230): each writes an arbitrary color. -/
def TimesCircleApp.setColors (s : TimesCircleApp) (line bg pt : Rgba) :
    TimesCircleApp :=
  { s with color := line, background_color := bg, perimeter_point_color := pt }

/-- The states reachable from `TimesCircleApp.new` under the state mutations
of the program: sliders, buttons, mouse and touch input, per-frame center
recomputation, and the animation step. -/
inductive Reachable : TimesCircleApp → Prop where
  | init : Reachable TimesCircleApp.new
  | setNumPoints {s} (v : ℕ) : Reachable s → Reachable (s.setNumPoints v)
  | setMultiplier {s} (v : ℚ) : Reachable s → Reachable (s.setMultiplier v)
  | setStepSize {s} (v : ℚ) : Reachable s → Reachable (s.setStepSize v)
  | setStroke {s} (v : ℚ) : Reachable s → Reachable (s.setStroke v)
  | setPerimeterPointsRadius {s} (v : ℚ) :
      Reachable s → Reachable (s.setPerimeterPointsRadius v)
  | play {s} : Reachable s → Reachable s.play
  | pause {s} : Reachable s → Reachable s.pause
  | frame {s} : Reachable s → Reachable s.frame
  | setCenter {s} (c : ℚ × ℚ) : Reachable s → Reachable (s.setCenter c)
  | mouseDrag {s} (d : ℚ × ℚ) : Reachable s → Reachable (s.mouseDrag d)
  | mouseZoom {s} (factor : ℚ) (pos : ℚ × ℚ) :
      Reachable s → Reachable (s.mouseZoom factor pos)
  | multitouch {s} (zd rd : ℚ) (td : ℚ × ℚ) :
      Reachable s → Reachable (s.multitouch zd rd td)
  | cycleColorMode {s} : Reachable s → Reachable s.cycleColorMode
  | toggleStyleOptions {s} : Reachable s → Reachable s.toggleStyleOptions
  | setColors {s} (line bg pt : Rgba) : Reachable s → Reachable (s.setColors line bg pt)

theorem step_eq_of_not_go (s : TimesCircleApp)
    (h : ¬(s.paused = false ∧ s.multiplier < (s.num_points : ℚ) ∧ 0 < s.multiplier)) :
    TimesCircleApp.step s = (s, false) := by
  unfold TimesCircleApp.step
  rw [if_neg h]

theorem step_eq_of_go (s : TimesCircleApp)
    (h : s.paused = false ∧ s.multiplier < (s.num_points : ℚ) ∧ 0 < s.multiplier) :
    TimesCircleApp.step s =
      ({ s with multiplier := s.multiplier + s.step_size }, true) := by
  unfold TimesCircleApp.step
  rw [if_pos h]

/-- C6 counterexample: the initial state has `num_points = 10` and
`stroke = 1.0`, not `num_points = 500` and `stroke = 0.3`. -/
theorem new_defaults_counterexample :
    TimesCircleApp.new.num_points ≠ 500 ∧ TimesCircleApp.new.stroke ≠ 3 / 10 := by
  constructor
  · decide
  · show (1 : ℚ) ≠ 3 / 10
    norm_num

/-- C6 amended: the state created once at program start has paused = true,
num_points = 10, multiplier = 2.0, step_size = 0.1, stroke = 1.0,
zoom = 0.85 and rotation = π (the `f32` constant `PI32`). -/
theorem new_defaults_amended :
    TimesCircleApp.new.paused = true ∧
    TimesCircleApp.new.num_points = 10 ∧
    TimesCircleApp.new.multiplier = 2 ∧
    TimesCircleApp.new.step_size = 1 / 10 ∧
    TimesCircleApp.new.stroke = 1 ∧
    TimesCircleApp.new.zoom = 85 / 100 ∧
    TimesCircleApp.new.rotation = PI32 :=
  ⟨rfl, rfl, rfl, rfl, rfl, rfl, rfl⟩

/-- A state with `paused = false` and `multiplier = 0`: the claimed "go"
region `0 ≤ multiplier < num_points` includes it, the code's does not. -/
def stopAtZeroState : TimesCircleApp :=
  { TimesCircleApp.new with
    paused := false, num_points := 10, multiplier := 0, step_size := 1 / 10 }

/-- C2 counterexample: the concrete state `paused = false`, `multiplier = 0`,
`num_points = 10`, `step_size = 0.1` lies in the claim's "otherwise" region
(`paused` false and `0 ≤ multiplier < num_points`), yet the claimed outcome
— `multiplier` becomes `multiplier + step_size` and another frame is
requested — is false there: the guard at app.rs:55 is the strict
`multiplier > 0.0`, so the code leaves the state unchanged and requests
nothing. -/
theorem step_contract_counterexample :
    (stopAtZeroState.paused = false ∧
      0 ≤ stopAtZeroState.multiplier ∧
      stopAtZeroState.multiplier < (stopAtZeroState.num_points : ℚ)) ∧
    ¬((TimesCircleApp.step stopAtZeroState).1.multiplier =
        stopAtZeroState.multiplier + stopAtZeroState.step_size ∧
      (TimesCircleApp.step stopAtZeroState).2 = true) ∧
    TimesCircleApp.step stopAtZeroState = (stopAtZeroState, false) := by
  have hstep : TimesCircleApp.step stopAtZeroState = (stopAtZeroState, false) := by
    apply step_eq_of_not_go
    rintro ⟨-, -, hpos⟩
    exact absurd hpos (by norm_num [stopAtZeroState, TimesCircleApp.new])
  refine ⟨⟨rfl, le_refl 0, by norm_num [stopAtZeroState, TimesCircleApp.new]⟩, ?_, hstep⟩
  rw [hstep]
  rintro ⟨-, hcont⟩
  exact Bool.noConfusion hcont

/-- C2 amended: if `paused` the step is a no-op with no repaint; likewise if
`multiplier ≥ num_points` or `multiplier ≤ 0` (the lower boundary is
inclusive: the guard is strict `multiplier > 0`); otherwise, i.e. when not
paused and `0 < multiplier < num_points`, the step adds `step_size` to
`multiplier` and requests a repaint. -/
theorem step_contract_amended (s : TimesCircleApp) :
    (s.paused = true → TimesCircleApp.step s = (s, false)) ∧
    ((s.num_points : ℚ) ≤ s.multiplier ∨ s.multiplier ≤ 0 →
      TimesCircleApp.step s = (s, false)) ∧
    (s.paused = false → 0 < s.multiplier → s.multiplier < (s.num_points : ℚ) →
      TimesCircleApp.step s =
        ({ s with multiplier := s.multiplier + s.step_size }, true)) := by
  refine ⟨?_, ?_, ?_⟩
  · intro hp
    apply step_eq_of_not_go
    rintro ⟨h1, -, -⟩
    rw [hp] at h1
    exact Bool.noConfusion h1
  · intro hb
    apply step_eq_of_not_go
    rintro ⟨-, hlt, hpos⟩
    rcases hb with hb | hb
    · exact absurd hlt (not_lt.mpr hb)
    · exact absurd hpos (not_lt.mpr hb)
  · intro hp hpos hlt
    exact step_eq_of_go s ⟨hp, hlt, hpos⟩

/-- Witness for `step_contract_amended`: the paused branch at the initial
state, the boundary branch at `multiplier = 0`, and the go branch after
pressing play at the initial state (`multiplier = 2`, `num_points = 10`). -/
theorem step_contract_amended_witness :
    TimesCircleApp.step TimesCircleApp.new = (TimesCircleApp.new, false) ∧
    TimesCircleApp.step stopAtZeroState = (stopAtZeroState, false) ∧
    TimesCircleApp.step TimesCircleApp.new.play =
      ({ TimesCircleApp.new.play with
          multiplier := TimesCircleApp.new.play.multiplier +
            TimesCircleApp.new.play.step_size }, true) :=
  ⟨(step_contract_amended TimesCircleApp.new).1 rfl,
   (step_contract_amended stopAtZeroState).2.1
     (Or.inr (by norm_num [stopAtZeroState, TimesCircleApp.new])),
   (step_contract_amended TimesCircleApp.new.play).2.2 rfl
     (by norm_num [TimesCircleApp.play, TimesCircleApp.new])
     (by norm_num [TimesCircleApp.play, TimesCircleApp.new])⟩

/-- The C7 start state: `paused = false`, `multiplier = 9.95`,
`step_size = 0.1`, `num_points = 10`. -/
def overshootState : TimesCircleApp :=
  { TimesCircleApp.new with
    paused := false, num_points := 10, multiplier := 199 / 20, step_size := 1 / 10 }

/-- C7: from `paused = false, multiplier = 9.95, step_size = 0.1,
num_points = 10`, one step yields `multiplier = 10.05` and requests a
repaint; the immediately following step changes nothing and requests no
repaint, because `multiplier ≥ num_points`. -/
theorem step_overshoot_example :
    (TimesCircleApp.step overshootState).1.multiplier = 201 / 20 ∧
    (TimesCircleApp.step overshootState).2 = true ∧
    ((TimesCircleApp.step overshootState).1.num_points : ℚ) ≤
      (TimesCircleApp.step overshootState).1.multiplier ∧
    TimesCircleApp.step (TimesCircleApp.step overshootState).1 =
      ((TimesCircleApp.step overshootState).1, false) := by
  have h1 : TimesCircleApp.step overshootState =
      ({ overshootState with multiplier := 199 / 20 + 1 / 10 }, true) :=
    step_eq_of_go overshootState
      ⟨rfl, by norm_num [overshootState, TimesCircleApp.new],
        by norm_num [overshootState, TimesCircleApp.new]⟩
  rw [h1]
  refine ⟨by norm_num, rfl, by norm_num [overshootState, TimesCircleApp.new], ?_⟩
  apply step_eq_of_not_go
  rintro ⟨-, hlt, -⟩
  revert hlt
  norm_num [overshootState, TimesCircleApp.new]

/-- C4 counterexample: neither zoom handler clamps against a floor — a
scroll gesture factor of `0` drives `zoom` from its default `0.85` to `0`,
and a pinch factor of `-1` drives it negative. -/
theorem zoom_no_floor_counterexample :
    ¬(0 < (TimesCircleApp.new.mouseZoom 0 (0, 0)).zoom) ∧
    (TimesCircleApp.new.multitouch (-1) 0 (0, 0)).zoom < 0 := by
  constructor
  · show ¬(0 < TimesCircleApp.new.zoom * 0)
    norm_num
  · show TimesCircleApp.new.zoom * (-1) < 0
    norm_num [TimesCircleApp.new]

/-- C4 amended: there is no floor clamp; each handler multiplies `zoom` by
the gesture factor, so a positive zoom stays positive exactly for strictly
positive factors (a zero or negative factor produces a non-positive zoom). -/
theorem zoom_positive_amended (s : TimesCircleApp) (factor zd rd : ℚ)
    (pos td : ℚ × ℚ) (hz : 0 < s.zoom) :
    (0 < factor → 0 < (s.mouseZoom factor pos).zoom) ∧
    (0 < zd → 0 < (s.multitouch zd rd td).zoom) ∧
    (factor ≤ 0 → (s.mouseZoom factor pos).zoom ≤ 0) := by
  refine ⟨?_, ?_, ?_⟩
  · intro hf
    show 0 < s.zoom * factor
    exact mul_pos hz hf
  · intro hf
    show 0 < s.zoom * zd
    exact mul_pos hz hf
  · intro hf
    show s.zoom * factor ≤ 0
    exact mul_nonpos_of_nonneg_of_nonpos (le_of_lt hz) hf

/-- Witness for `zoom_positive_amended`. -/
theorem zoom_positive_amended_witness :
    0 < (TimesCircleApp.new.mouseZoom 2 (0, 0)).zoom :=
  (zoom_positive_amended TimesCircleApp.new 2 1 0 (0, 0) (0, 0)
    (by norm_num [TimesCircleApp.new])).1 (by norm_num)

/-- The bounds maintained by every mutation of `multiplier`, `num_points`
and `step_size`: slider ranges cap `num_points` at `10000` and `step_size`
at `1`, and the animation step only fires below `num_points`, so
`multiplier` stays in `[0, 10001)`. -/
def multiplierBounds (s : TimesCircleApp) : Prop :=
  0 ≤ s.multiplier ∧ s.multiplier < 10001 ∧ s.num_points ≤ 10000 ∧
  0 ≤ s.step_size ∧ s.step_size ≤ 1

theorem reachable_multiplierBounds (s : TimesCircleApp) (h : Reachable s) :
    multiplierBounds s := by
  induction h with
  | init =>
      refine ⟨?_, ?_, ?_, ?_, ?_⟩ <;> norm_num [TimesCircleApp.new]
  | setNumPoints v _ ih =>
      obtain ⟨hA, hB, _hC, hD, hE⟩ := ih
      exact ⟨hA, hB, Nat.min_le_right v 10000, hD, hE⟩
  | @setMultiplier t v _ ih =>
      obtain ⟨_hA, _hB, hC, hD, hE⟩ := ih
      refine ⟨le_max_left 0 _, ?_, hC, hD, hE⟩
      have hn : ((t.num_points : ℕ) : ℚ) ≤ 10000 := by exact_mod_cast hC
      apply max_lt (by norm_num)
      calc min ((t.num_points : ℕ) : ℚ) v ≤ ((t.num_points : ℕ) : ℚ) :=
            min_le_left _ _
        _ ≤ 10000 := hn
        _ < 10001 := by norm_num
  | setStepSize v _ ih =>
      obtain ⟨hA, hB, hC, _hD, _hE⟩ := ih
      exact ⟨hA, hB, hC, le_max_left 0 _,
        max_le (by norm_num) (min_le_left 1 v)⟩
  | setStroke v _ ih => exact ih
  | setPerimeterPointsRadius v _ ih => exact ih
  | play _ ih => exact ih
  | pause _ ih => exact ih
  | @frame t _ ih =>
      obtain ⟨hA, hB, hC, hD, hE⟩ := ih
      unfold TimesCircleApp.frame TimesCircleApp.step
      split
      next hgo =>
        obtain ⟨-, hlt, hpos⟩ := hgo
        have hn : ((t.num_points : ℕ) : ℚ) ≤ 10000 := by exact_mod_cast hC
        refine ⟨add_nonneg hA hD, ?_, hC, hD, hE⟩
        show t.multiplier + t.step_size < (10001 : ℚ)
        linarith
      next => exact ⟨hA, hB, hC, hD, hE⟩
  | setCenter c _ ih => exact ih
  | mouseDrag d _ ih => exact ih
  | mouseZoom factor pos _ ih => exact ih
  | multitouch zd rd td _ ih => exact ih
  | cycleColorMode _ ih => exact ih
  | toggleStyleOptions _ ih => exact ih
  | setColors line bg pt _ ih => exact ih

/-- The reachable state where `multiplier` has overshot `num_points`: set
the multiplier slider to `9.95`, press play, render one frame. -/
def overshootReached : TimesCircleApp :=
  ((TimesCircleApp.new.setMultiplier (199 / 20)).play).frame

/-- C5 counterexample: `overshootReached` is reachable and violates
`multiplier ≤ num_points` (`10.05 > 10`): the animation step writes
`multiplier` without clamping it into `[0, num_points]`. -/
theorem multiplier_invariant_counterexample :
    Reachable overshootReached ∧
    ¬(overshootReached.multiplier ≤ (overshootReached.num_points : ℚ)) := by
  constructor
  · exact Reachable.frame (Reachable.play (Reachable.setMultiplier _ Reachable.init))
  · have h1 : (TimesCircleApp.new.setMultiplier (199 / 20)).play =
        { TimesCircleApp.new with multiplier := 199 / 20, paused := false } := by
      unfold TimesCircleApp.setMultiplier TimesCircleApp.play clampQ
      norm_num [TimesCircleApp.new]
    unfold overshootReached TimesCircleApp.frame
    rw [h1, step_eq_of_go _ ⟨rfl, by norm_num [TimesCircleApp.new], by norm_num⟩]
    norm_num [TimesCircleApp.new]

/-- C5 amended: `0 ≤ multiplier` does hold in every reachable state, but the
upper bound is `num_points + step_size` at the moment of the overshooting
step, not `num_points`: globally `multiplier < 10001` (slider cap `10000`
plus maximal step `1`), and the animation ceases to increment once
`multiplier` reaches or exceeds `num_points` or drops to `0` or below. -/
theorem multiplier_invariant_amended :
    (∀ s : TimesCircleApp, Reachable s →
      0 ≤ s.multiplier ∧ s.multiplier < 10001) ∧
    (∀ s : TimesCircleApp,
      (s.num_points : ℚ) ≤ s.multiplier ∨ s.multiplier ≤ 0 →
      TimesCircleApp.step s = (s, false)) := by
  constructor
  · intro s hs
    have h := reachable_multiplierBounds s hs
    exact ⟨h.1, h.2.1⟩
  · intro s hb
    apply step_eq_of_not_go
    rintro ⟨-, hlt, hpos⟩
    rcases hb with hb | hb
    · exact absurd hlt (not_lt.mpr hb)
    · exact absurd hpos (not_lt.mpr hb)

/-- Witness for `multiplier_invariant_amended`. -/
theorem multiplier_invariant_amended_witness :
    0 ≤ TimesCircleApp.new.multiplier ∧ TimesCircleApp.new.multiplier < 10001 :=
  multiplier_invariant_amended.1 TimesCircleApp.new Reachable.init
